import Mathlib

/-!
Verification of the `lambda-extension-hooks` library (Node.js).

The development shallowly embeds the three source modules:

* `lib/hook-registry.js` — registration normalization and the
  priority-ordered fan-out dispatch (`createHookRegistry`);
* `lib/errors.js` — the `LambdaHookError` value;
* `lib/lambda-hooks.js` together with `lib/extension-client.js` — the
  lifecycle controller (`start`, the poll loop, signal handling) and the
  protocol client (`register`, `nextEvent`, `reportInitError`,
  `reportExitError`).

Handlers are opaque: a handler value is a `Nat` tag, and its behaviour is
supplied by an environment mapping the tag and the received event to a
result.  JavaScript-specific semantics that the claims depend on are made
explicit: truthiness of `x || y || 0` chains, the stability of
`Array.prototype.sort`, identifier resolution in the client closure, and
receiver binding of an unbound method passed to `process.once`.
-/

set_option autoImplicit false

namespace LambdaExtensionHooks

/-- Truthiness of an optional integer value: `undefined` and `0` are falsy,
every other integer is truthy. -/
def truthyInt : Option Int → Bool
  | none => false
  | some n => n != 0

/-- The expression `a || b || 0` over priority values, as it appears in
`hook-registry.js` (`item.priority || options.priority || 0` and
`options.priority || 0`). -/
def jsPriorityOr (a b : Option Int) : Int :=
  if truthyInt a then a.getD 0 else if truthyInt b then b.getD 0 else 0

/-- The `LambdaHookError` value from `lib/errors.js`: a code, a message, an
optional cause (an opaque tag of the original error) and the `isFatal`
flag (defaulting to `false`). -/
structure LambdaHookError where
  code : String
  message : String
  cause : Option Nat := none
  isFatal : Bool := false
deriving DecidableEq, Repr

/-- A stored hook entry `{ handler, priority }`; the handler function is an
opaque tag. -/
structure HookEntry where
  handler : Nat
  priority : Int
deriving DecidableEq, Repr

/-- The optional `options` argument of `register` (only its `priority`
field is consulted). -/
structure RegOptions where
  priority : Option Int := none
deriving DecidableEq, Repr

/-- One element of an array passed to `register`: a bare function, an
object with a `handler` function and an optional `priority`, or any other
value (which the source rejects). -/
inductive HItem where
  | fn (f : Nat)
  | obj (f : Nat) (priority : Option Int)
  | bad
deriving DecidableEq, Repr

/-- The `handler` argument of `register`: a bare function, a
`{handler, priority}` object, an array of items, or any other value. -/
inductive HandlerArg where
  | fn (f : Nat)
  | obj (f : Nat) (priority : Option Int)
  | arr (items : List HItem)
  | bad
deriving DecidableEq, Repr

/-- The registry state: one list per phase, as in the `hooks` object
literal of `createHookRegistry`. -/
structure Hooks where
  INIT : List HookEntry
  INVOKE : List HookEntry
  SHUTDOWN : List HookEntry
deriving DecidableEq, Repr

/-- The freshly created registry: three empty lists. -/
def emptyHooks : Hooks := ⟨[], [], []⟩

/-- The property read `hooks[eventType]`: defined for the three own keys of
the `hooks` object literal, absent (hence falsy) for any other phase
name. -/
def hooksLookup (h : Hooks) (eventType : String) : Option (List HookEntry) :=
  if eventType = "INIT" then some h.INIT
  else if eventType = "INVOKE" then some h.INVOKE
  else if eventType = "SHUTDOWN" then some h.SHUTDOWN
  else none

/-- Replacing the list stored at a phase key (the effect of mutating
`hooks[eventType]` in place). -/
def hooksSet (h : Hooks) (eventType : String) (l : List HookEntry) : Hooks :=
  if eventType = "INIT" then { h with INIT := l }
  else if eventType = "INVOKE" then { h with INVOKE := l }
  else if eventType = "SHUTDOWN" then { h with SHUTDOWN := l }
  else h

/-- Insertion of an entry behind every entry of priority at least its own:
the building block of a stable descending sort. -/
def insertDesc (e : HookEntry) : List HookEntry → List HookEntry
  | [] => [e]
  | x :: xs => if e.priority ≤ x.priority then x :: insertDesc e xs else e :: x :: xs

/-- Left fold of `insertDesc` over a list, starting from `acc`. -/
def insertAll (acc : List HookEntry) (l : List HookEntry) : List HookEntry :=
  l.foldl (fun a e => insertDesc e a) acc

/-- The call `hooks[eventType].sort((a, b) => b.priority - a.priority)`.
`Array.prototype.sort` is stable (ECMAScript 2019), so with this comparator
it computes the stable descending insertion sort. -/
def sortByPriorityDesc (l : List HookEntry) : List HookEntry :=
  insertAll [] l

/-- The `INVALID_EVENT_TYPE` error thrown by `register`. -/
def invalidEventTypeError (eventType : String) : LambdaHookError :=
  { code := "INVALID_EVENT_TYPE", message := "Invalid event type: " ++ eventType }

/-- The `INVALID_HANDLER` error thrown for a bad element of an array
argument. -/
def invalidHandlerItemError : LambdaHookError :=
  { code := "INVALID_HANDLER"
    message := "Each item in the array must be a function or an object with a handler function" }

/-- The `INVALID_HANDLER` error thrown for a bad non-array argument. -/
def invalidHandlerError : LambdaHookError :=
  { code := "INVALID_HANDLER"
    message := "Handler must be a function, an array of functions, or an object with a handler function" }

/-- The `forEach` over an array argument: each valid item is pushed onto
the phase list (with priority `item.priority || options.priority || 0` for
an object, `options.priority || 0` for a bare function); the first invalid
item throws `INVALID_HANDLER`, leaving the entries pushed so far in
place. -/
def pushArrayItems (opts : RegOptions) :
    List HItem → List HookEntry → List HookEntry × Option LambdaHookError
  | [], acc => (acc, none)
  | HItem.obj f p :: rest, acc =>
      pushArrayItems opts rest (acc ++ [⟨f, jsPriorityOr p opts.priority⟩])
  | HItem.fn f :: rest, acc =>
      pushArrayItems opts rest (acc ++ [⟨f, jsPriorityOr none opts.priority⟩])
  | HItem.bad :: _, acc => (acc, some invalidHandlerItemError)

/-- The registry method `register(eventType, handler, options)`.  It
returns the registry state after the call together with the error thrown,
if any: an unknown phase throws `INVALID_EVENT_TYPE` before any mutation; a
failing array item throws `INVALID_HANDLER` after the valid prefix was
pushed and before the sort; a successful call pushes all normalized entries
and re-sorts the phase list by descending priority. -/
def register (h : Hooks) (eventType : String) (arg : HandlerArg) (opts : RegOptions) :
    Hooks × Option LambdaHookError :=
  match hooksLookup h eventType with
  | none => (h, some (invalidEventTypeError eventType))
  | some l =>
    match arg with
    | HandlerArg.arr items =>
      match pushArrayItems opts items l with
      | (l2, some e) => (hooksSet h eventType l2, some e)
      | (l2, none) => (hooksSet h eventType (sortByPriorityDesc l2), none)
    | HandlerArg.obj f p =>
        (hooksSet h eventType (sortByPriorityDesc (l ++ [⟨f, jsPriorityOr p opts.priority⟩])), none)
    | HandlerArg.fn f =>
        (hooksSet h eventType (sortByPriorityDesc (l ++ [⟨f, jsPriorityOr none opts.priority⟩])), none)
    | HandlerArg.bad => (h, some invalidHandlerError)

/-- Whether an array item passes the source's shape checks (a function, or
an object with a `handler` function). -/
def itemOk : HItem → Bool
  | HItem.bad => false
  | _ => true

/-- The `HookEntry` the source pushes for one valid array item under the
given options; `none` for an invalid item. -/
def itemEntry (opts : RegOptions) : HItem → Option HookEntry
  | HItem.fn f => some ⟨f, jsPriorityOr none opts.priority⟩
  | HItem.obj f p => some ⟨f, jsPriorityOr p opts.priority⟩
  | HItem.bad => none

/-- An array item viewed as a stand-alone `register` argument. -/
def itemToArg : HItem → HandlerArg
  | HItem.fn f => HandlerArg.fn f
  | HItem.obj f p => HandlerArg.obj f p
  | HItem.bad => HandlerArg.bad

/-- Whether a `register` argument is accepted without throwing
`INVALID_HANDLER`. -/
def argOk : HandlerArg → Bool
  | HandlerArg.fn _ => true
  | HandlerArg.obj _ _ => true
  | HandlerArg.arr items => items.all itemOk
  | HandlerArg.bad => false

/-- The entries a successful `register` call pushes, in push order. -/
def argEntries (opts : RegOptions) : HandlerArg → List HookEntry
  | HandlerArg.fn f => [⟨f, jsPriorityOr none opts.priority⟩]
  | HandlerArg.obj f p => [⟨f, jsPriorityOr p opts.priority⟩]
  | HandlerArg.arr items => items.filterMap (itemEntry opts)
  | HandlerArg.bad => []

/-- A sequence of `register` calls into one phase, applied in order (the
error of each call discarded). -/
def registerAll (h : Hooks) (eventType : String) : List (HandlerArg × RegOptions) → Hooks
  | [] => h
  | c :: rest => registerAll (register h eventType c.1 c.2).1 eventType rest

/-- All entries pushed by a sequence of calls, in registration order. -/
def callsEntries (calls : List (HandlerArg × RegOptions)) : List HookEntry :=
  (calls.map (fun c => argEntries c.2 c.1)).flatten

/-- Outcome of one handler invocation: normal return, or a rejection
carrying an opaque error tag. -/
inductive HandlerRes where
  | ok
  | err (e : Nat)
deriving DecidableEq, Repr

/-- An event envelope as seen by the controller and the handlers. -/
structure Event where
  eventType : String
  signal : Option String := none
  shutdownReason : Option String := none
deriving DecidableEq, Repr

/-- Behaviour of the opaque handlers: result of invoking the handler with
the given tag on the given event. -/
def HandlerEnv : Type := Nat → Event → HandlerRes

/-- First rejection among the entries, in list order (the rejection
surfaced by `Promise.all` when each handler settles in order). -/
def firstFailure (henv : HandlerEnv) (event : Event) : List HookEntry → Option Nat
  | [] => none
  | e :: rest =>
    match henv e.handler event with
    | HandlerRes.err c => some c
    | HandlerRes.ok => firstFailure henv event rest

/-- Settled outcome of an `executeHooks` call: the joined promise
resolved, or rejected with a `LambdaHookError`. -/
inductive ExecResult where
  | resolved
  | rejected (e : LambdaHookError)
deriving DecidableEq, Repr

/-- The registry method `executeHooks(eventType, event)`.  Returns the
trace of handler tags invoked (every entry's handler is started by the
`map`, so every one of them runs to completion) and the settled result: an
unknown or empty phase resolves at once with no invocation; otherwise the
call rejects with `HOOK_EXECUTION_ERROR` (message naming the phase, cause
the original error) exactly when some handler rejected. -/
def executeHooks (h : Hooks) (henv : HandlerEnv) (eventType : String) (event : Event) :
    List Nat × ExecResult :=
  match hooksLookup h eventType with
  | none => ([], ExecResult.resolved)
  | some l =>
    if l.length = 0 then ([], ExecResult.resolved)
    else
      (l.map (fun e => e.handler),
       match firstFailure henv event l with
       | some c =>
           ExecResult.rejected
             { code := "HOOK_EXECUTION_ERROR"
               message := "Error executing " ++ eventType ++ " hook"
               cause := some c }
       | none => ExecResult.resolved)

/-- A JavaScript runtime value, as far as the claims need it. -/
inductive JsVal where
  | str (s : String)
  | boolVal (b : Bool)
  | fnVal
  | objVal
  | undef
deriving DecidableEq, Repr

/-- JavaScript truthiness of a value. -/
def jsTruthy : JsVal → Bool
  | JsVal.str s => s != ""
  | JsVal.boolVal b => b
  | JsVal.fnVal => true
  | JsVal.objVal => true
  | JsVal.undef => false

/-- A failure escaping a client call: an unresolved identifier
(`ReferenceError`) or a thrown `LambdaHookError`. -/
inductive JsFailure where
  | referenceError (name : String)
  | hookError (e : LambdaHookError)
deriving DecidableEq, Repr

/-- Outcome of a client call: normal completion or a thrown failure. -/
inductive ReportResult where
  | ok
  | err (f : JsFailure)
deriving DecidableEq, Repr

/-- Whether the call threw. -/
def ReportResult.failed : ReportResult → Bool
  | ReportResult.ok => false
  | ReportResult.err _ => true

/-- Reading an identifier under a scope chain: the bound value, or a
`ReferenceError` when no enclosing scope binds the name. -/
def readVar (env : String → Option JsVal) (x : String) : JsVal ⊕ JsFailure :=
  match env x with
  | some v => Sum.inl v
  | none => Sum.inr (JsFailure.referenceError x)

/-- The scope chain visible inside the methods returned by
`createExtensionClient` in `lib/extension-client.js`: the destructured
option bindings and the locals of the closure, the module-level imports and
the exported function, and the Node globals the module touches.  No scope
in this chain binds `extensionId`: the controller keeps the identifier in
its private field `#extensionId` and never passes it to these methods. -/
def clientEnv (extensionName : String) (includeAccountId : Bool) : String → Option JsVal :=
  fun x =>
    if x = "extensionName" then some (JsVal.str extensionName)
    else if x = "includeAccountId" then some (JsVal.boolVal includeAccountId)
    else if x = "extensionType" then some JsVal.undef
    else if x = "options" then some JsVal.objVal
    else if x = "apiBaseUrl" then some (JsVal.str "http://host/2020-01-01/extension/")
    else if x = "makeRequest" then some JsVal.fnVal
    else if x = "createExtensionClient" then some JsVal.fnVal
    else if x = "LambdaHookError" then some JsVal.fnVal
    else if x = "http" then some JsVal.objVal
    else if x = "URL" then some JsVal.fnVal
    else if x = "process" then some JsVal.objVal
    else none

/-- The `INVALID_STATE` error of `reportInitError`. -/
def invalidStateInitError : LambdaHookError :=
  { code := "INVALID_STATE", message := "Cannot report init error: Extension not registered" }

/-- The `INVALID_STATE` error of `reportExitError`. -/
def invalidStateExitError : LambdaHookError :=
  { code := "INVALID_STATE", message := "Cannot report exit error: Extension not registered" }

/-- The client method `reportInitError(error)`.  Its body first evaluates
the guard `if (!extensionId)`, which reads the identifier `extensionId`
under the client scope chain; `ctrlExtensionId` is the value of the
controller's `#extensionId` field at call time, which the source never
threads into the client, so the method cannot depend on it. -/
def reportInitError (env : String → Option JsVal) (ctrlExtensionId : Option String)
    (error : LambdaHookError) : ReportResult :=
  match readVar env "extensionId" with
  | Sum.inr e => ReportResult.err e
  | Sum.inl v =>
    if ¬ jsTruthy v then ReportResult.err (JsFailure.hookError invalidStateInitError)
    else ReportResult.ok

/-- The client method `reportExitError(error)`, with the same guard shape
as `reportInitError`. -/
def reportExitError (env : String → Option JsVal) (ctrlExtensionId : Option String)
    (error : LambdaHookError) : ReportResult :=
  match readVar env "extensionId" with
  | Sum.inr e => ReportResult.err e
  | Sum.inl v =>
    if ¬ jsTruthy v then ReportResult.err (JsFailure.hookError invalidStateExitError)
    else ReportResult.ok

/-- The controller phases named by the specification, mapped onto the
single `#isRunning` flag the source keeps. -/
inductive ControllerState where
  | created
  | registering
  | running
  | terminated
deriving DecidableEq, Repr

/-- Value of `this.#isRunning` in each phase: the field starts `false`, is
set to `true` only after registration, the optional pre-fetch and the
`INIT` hooks all completed (line 111 of `lambda-hooks.js`), and is reset to
`false` when the loop terminates (shutdown handling or a fatal poll
error). -/
def isRunningIn : ControllerState → Bool
  | ControllerState.running => true
  | _ => false

/-- The `ALREADY_RUNNING` error of `start()`. -/
def alreadyRunningError : LambdaHookError :=
  { code := "ALREADY_RUNNING", message := "Extension is already running" }

/-- The entry of `start()`: the guard `if (this.#isRunning) throw ...`
throws `ALREADY_RUNNING` without touching any state; otherwise the call
proceeds into the registration sequence. -/
def startCall (st : ControllerState) : Option LambdaHookError × ControllerState :=
  if isRunningIn st then (some alreadyRunningError, st)
  else (none, ControllerState.registering)

/-- One result of awaiting `extensionClient.nextEvent` inside the poll
loop: a resolved event envelope or a rejection. -/
inductive PollResult where
  | ev (e : Event)
  | err (e : LambdaHookError)
deriving DecidableEq, Repr

/-- An observable step of the poll loop. -/
inductive Action where
  | poll
  | execHooks (phase : String) (invoked : List Nat)
  | reportExitAttempt (reportFailed : Bool)
deriving DecidableEq, Repr

/-- The loop body of `#startEventLoop`, driven by a script of poll
results.  Returns the trace of actions and the final value of
`#isRunning` (`true` when the script ran out while the loop would
continue).  A `SHUTDOWN` envelope runs the `SHUTDOWN` hooks with every
rejection caught, clears `#isRunning` and breaks; an `INVOKE` envelope
runs the `INVOKE` hooks with every rejection caught and continues; any
other envelope is ignored; a poll rejection breaks after a best-effort
`reportExitError` attempt (whose own failure is only logged) when its
`isFatal` flag is set, and otherwise is logged and the loop retries. -/
def runLoop (h : Hooks) (henv : HandlerEnv) (reportRes : ReportResult) :
    List PollResult → List Action × Bool
  | [] => ([], true)
  | PollResult.ev e :: rest =>
    if e.eventType = "SHUTDOWN" then
      ([Action.poll, Action.execHooks "SHUTDOWN" (executeHooks h henv "SHUTDOWN" e).1], false)
    else if e.eventType = "INVOKE" then
      let k := runLoop h henv reportRes rest
      (Action.poll :: Action.execHooks "INVOKE" (executeHooks h henv "INVOKE" e).1 :: k.1, k.2)
    else
      let k := runLoop h henv reportRes rest
      (Action.poll :: k.1, k.2)
  | PollResult.err e :: rest =>
    if e.isFatal then
      ([Action.poll, Action.reportExitAttempt reportRes.failed], false)
    else
      let k := runLoop h henv reportRes rest
      (Action.poll :: k.1, k.2)

/-- Whether an action is a dispatch of the `SHUTDOWN` phase. -/
def isShutdownExec : Action → Bool
  | Action.execHooks p _ => p = "SHUTDOWN"
  | _ => false

/-- The receiver (`this`) a function runs with when invoked. -/
inductive ThisVal where
  | ctrlInstance
  | processEmitter
deriving DecidableEq, Repr

/-- A private member access `recv.#member` of the `LambdaHooks` class:
it succeeds only when the receiver is an instance of the class and throws
`TypeError` otherwise. -/
def privateAccessOk : ThisVal → Bool
  | ThisVal.ctrlInstance => true
  | ThisVal.processEmitter => false

/-- The observable outcome of delivering a termination signal. -/
structure SignalOutcome where
  dispatches : List (String × List Nat)
  exited : Bool
deriving DecidableEq, Repr

/-- The synthetic event `{ eventType: 'SHUTDOWN', signal }` built by
`#handleSignal`. -/
def syntheticShutdownEvent (signal : String) : Event :=
  { eventType := "SHUTDOWN", signal := some signal }

/-- The method `#handleSignal(signal)`: its `try` block evaluates
`this.#handleShutdown`, a private member access on the current receiver,
then (on success) dispatches `executeHooks('SHUTDOWN', event)` with every
rejection caught; the `finally` block always calls `process.exit(0)`. -/
def handleSignal (recv : ThisVal) (h : Hooks) (henv : HandlerEnv) (signal : String) :
    SignalOutcome :=
  if privateAccessOk recv then
    { dispatches :=
        [("SHUTDOWN", (executeHooks h henv "SHUTDOWN" (syntheticShutdownEvent signal)).1)]
      exited := true }
  else
    { dispatches := [], exited := true }

/-- Delivery of a termination signal to the installed listener.  `start()`
registers the listener as `process.once(sig, this.#handleSignal)`, passing
the method unbound, and Node's `EventEmitter` invokes a listener with
`this` bound to the emitter, so at delivery the receiver is the `process`
object, not the controller instance. -/
def signalDelivery (h : Hooks) (henv : HandlerEnv) (signal : String) : SignalOutcome :=
  handleSignal ThisVal.processEmitter h henv signal

/-- The constructor options of `LambdaHooks`, each field possibly absent. -/
structure CtorOptions where
  extensionName : Option String := none
  extensionType : Option String := none
  initLoad : Option String := none
  includeAccountId : Option Bool := none
deriving DecidableEq, Repr

/-- Truthiness of an optional string: `undefined` and the empty string are
falsy. -/
def truthyStr : Option String → Bool
  | none => false
  | some s => s != ""

/-- String interpolation of an optional string value (`undefined` prints
as the word `undefined`). -/
def showOptStr : Option String → String
  | none => "undefined"
  | some s => s

/-- The validation sequence of the `LambdaHooks` constructor: the error it
throws, `none` when construction succeeds.  The checks run in source
order: a falsy `extensionName`, then an `extensionType` outside
`['internal', 'external']`, then an `initLoad` outside
`['before', 'after']`; there is no default for any of the three. -/
def ctorValidate (o : CtorOptions) : Option LambdaHookError :=
  if ¬ truthyStr o.extensionName then
    some { code := "INIT_ERROR", message := "Extension name is required" }
  else if ¬ (o.extensionType = some "internal" ∨ o.extensionType = some "external") then
    some { code := "INIT_ERROR"
           message := "Invalid extension type: " ++ showOptStr o.extensionType ++
             ". Extension type must be \"internal\" or \"external\"" }
  else if ¬ (o.initLoad = some "before" ∨ o.initLoad = some "after") then
    some { code := "INIT_ERROR"
           message := "Invalid init event load behavior: " ++ showOptStr o.initLoad ++
             ". Event init load must be \"before\" or \"after\"" }
  else none

/-! Lemmas about the stable descending sort. -/

theorem insertAll_nil (acc : List HookEntry) : insertAll acc [] = acc := rfl

theorem insertAll_cons (acc : List HookEntry) (e : HookEntry) (rest : List HookEntry) :
    insertAll acc (e :: rest) = insertAll (insertDesc e acc) rest := rfl

theorem insertAll_append (acc a b : List HookEntry) :
    insertAll acc (a ++ b) = insertAll (insertAll acc a) b := by
  simp [insertAll, List.foldl_append]

theorem mem_insertDesc {b e : HookEntry} {l : List HookEntry} :
    b ∈ insertDesc e l ↔ b = e ∨ b ∈ l := by
  induction l with
  | nil => simp [insertDesc]
  | cons x xs ih =>
    by_cases hc : e.priority ≤ x.priority
    · simp only [insertDesc, if_pos hc, List.mem_cons, ih]
      tauto
    · simp only [insertDesc, if_neg hc, List.mem_cons]

theorem insertDesc_pairwise {l : List HookEntry} (e : HookEntry)
    (hl : l.Pairwise (fun a b => b.priority ≤ a.priority)) :
    (insertDesc e l).Pairwise (fun a b => b.priority ≤ a.priority) := by
  induction l with
  | nil => simp [insertDesc]
  | cons x xs ih =>
    rcases List.pairwise_cons.mp hl with ⟨hx, hxs⟩
    by_cases hc : e.priority ≤ x.priority
    · simp only [insertDesc, if_pos hc]
      refine List.pairwise_cons.mpr ⟨?_, ih hxs⟩
      intro b hb
      rcases mem_insertDesc.mp hb with hbe | hbx
      · exact hbe ▸ hc
      · exact hx b hbx
    · simp only [insertDesc, if_neg hc]
      refine List.pairwise_cons.mpr ⟨?_, List.pairwise_cons.mpr ⟨hx, hxs⟩⟩
      intro b hb
      rcases List.mem_cons.mp hb with hbx | hbxs
      · exact hbx ▸ le_of_lt (lt_of_not_le hc)
      · exact le_trans (hx b hbxs) (le_of_lt (lt_of_not_le hc))

theorem insertAll_pairwise (l : List HookEntry) :
    ∀ acc, acc.Pairwise (fun a b => b.priority ≤ a.priority) →
      (insertAll acc l).Pairwise (fun a b => b.priority ≤ a.priority) := by
  induction l with
  | nil => intro acc h; simpa [insertAll_nil] using h
  | cons e rest ih =>
    intro acc h
    rw [insertAll_cons]
    exact ih (insertDesc e acc) (insertDesc_pairwise e h)

theorem sortByPriorityDesc_pairwise (l : List HookEntry) :
    (sortByPriorityDesc l).Pairwise (fun a b => b.priority ≤ a.priority) :=
  insertAll_pairwise l [] (by simp)

theorem insertDesc_of_le {l : List HookEntry} {e : HookEntry}
    (h : ∀ x ∈ l, e.priority ≤ x.priority) : insertDesc e l = l ++ [e] := by
  induction l with
  | nil => rfl
  | cons x xs ih =>
    have hx : e.priority ≤ x.priority := h x (List.mem_cons_self x xs)
    simp only [insertDesc, if_pos hx, List.cons_append]
    rw [ih (fun y hy => h y (List.mem_cons_of_mem x hy))]

theorem insertAll_of_sorted (l : List HookEntry) :
    ∀ acc, (acc ++ l).Pairwise (fun a b => b.priority ≤ a.priority) →
      insertAll acc l = acc ++ l := by
  induction l with
  | nil => intro acc _; simp [insertAll_nil]
  | cons e rest ih =>
    intro acc h
    rcases List.pairwise_append.mp h with ⟨hacc, hrest, hcross⟩
    have hins : insertDesc e acc = acc ++ [e] :=
      insertDesc_of_le (fun x hx => hcross x hx e (List.mem_cons_self e rest))
    rw [insertAll_cons, hins, ih (acc ++ [e]) (by simpa using h)]
    simp

theorem sortByPriorityDesc_of_sorted {l : List HookEntry}
    (h : l.Pairwise (fun a b => b.priority ≤ a.priority)) :
    sortByPriorityDesc l = l :=
  insertAll_of_sorted l [] (by simpa using h)

theorem sortByPriorityDesc_idem (l : List HookEntry) :
    sortByPriorityDesc (sortByPriorityDesc l) = sortByPriorityDesc l :=
  sortByPriorityDesc_of_sorted (sortByPriorityDesc_pairwise l)

theorem sort_append (x y : List HookEntry) :
    sortByPriorityDesc (x ++ y) = insertAll (sortByPriorityDesc x) y := by
  simp [sortByPriorityDesc, insertAll_append]

theorem sort_append_sort (a b : List HookEntry) :
    sortByPriorityDesc (sortByPriorityDesc a ++ b) = sortByPriorityDesc (a ++ b) := by
  rw [sort_append (sortByPriorityDesc a) b, sortByPriorityDesc_idem, ← sort_append]

theorem filter_insertDesc (p : Int) (e : HookEntry) :
    ∀ {acc : List HookEntry}, acc.Pairwise (fun a b => b.priority ≤ a.priority) →
      (insertDesc e acc).filter (fun x => decide (x.priority = p)) =
        if e.priority = p then
          acc.filter (fun x => decide (x.priority = p)) ++ [e]
        else acc.filter (fun x => decide (x.priority = p)) := by
  intro acc
  induction acc with
  | nil =>
    intro _
    by_cases hep : e.priority = p <;> simp [insertDesc, List.filter, hep]
  | cons x xs ih =>
    intro h
    rcases List.pairwise_cons.mp h with ⟨hx, hxs⟩
    by_cases hc : e.priority ≤ x.priority
    · simp only [insertDesc, if_pos hc]
      by_cases hep : e.priority = p <;>
        by_cases hxp : x.priority = p <;>
          simp [List.filter_cons, hep, hxp, ih hxs]
    · simp only [insertDesc, if_neg hc]
      have hlt : x.priority < e.priority := lt_of_not_le hc
      by_cases hep : e.priority = p
      · have hnil : (x :: xs).filter (fun y => decide (y.priority = p)) = [] := by
          rw [List.filter_eq_nil_iff]
          intro y hy
          rcases List.mem_cons.mp hy with hyx | hyxs
          · subst hyx
            simp only [decide_eq_true_eq]
            omega
          · have := hx y hyxs
            simp only [decide_eq_true_eq]
            omega
        simp [List.filter_cons, hep, hnil]
      · simp [List.filter_cons, hep]

theorem filter_insertAll (p : Int) (l : List HookEntry) :
    ∀ acc, acc.Pairwise (fun a b => b.priority ≤ a.priority) →
      (insertAll acc l).filter (fun x => decide (x.priority = p)) =
        acc.filter (fun x => decide (x.priority = p)) ++
          l.filter (fun x => decide (x.priority = p)) := by
  induction l with
  | nil => intro acc _; simp [insertAll_nil]
  | cons e rest ih =>
    intro acc h
    rw [insertAll_cons, ih (insertDesc e acc) (insertDesc_pairwise e h),
      filter_insertDesc p e h]
    by_cases hep : e.priority = p <;> simp [List.filter_cons, hep]

theorem filter_sortByPriorityDesc (p : Int) (l : List HookEntry) :
    (sortByPriorityDesc l).filter (fun x => decide (x.priority = p)) =
      l.filter (fun x => decide (x.priority = p)) := by
  simpa using filter_insertAll p l [] (by simp)

/-! Lemmas about registration. -/

theorem pushArrayItems_all_ok :
    ∀ {items : List HItem}, items.all itemOk = true →
      ∀ (acc : List HookEntry) (opts : RegOptions),
        pushArrayItems opts items acc = (acc ++ items.filterMap (itemEntry opts), none) := by
  intro items
  induction items with
  | nil => intro _ acc opts; simp [pushArrayItems]
  | cons i rest ih =>
    intro hok acc opts
    have hi : itemOk i = true := by
      cases hb : itemOk i
      · rw [List.all_cons, hb] at hok; simp at hok
      · rfl
    have hrest : rest.all itemOk = true := by
      rw [List.all_cons, hi] at hok; simpa using hok
    cases i with
    | fn f => simp [pushArrayItems, ih hrest, itemEntry, List.filterMap_cons]
    | obj f p => simp [pushArrayItems, ih hrest, itemEntry, List.filterMap_cons]
    | bad => simp [itemOk] at hi

theorem pushArrayItems_bad_item :
    ∀ {good : List HItem}, good.all itemOk = true →
      ∀ (acc : List HookEntry) (opts : RegOptions) (rest : List HItem),
        pushArrayItems opts (good ++ HItem.bad :: rest) acc =
          (acc ++ good.filterMap (itemEntry opts), some invalidHandlerItemError) := by
  intro good
  induction good with
  | nil => intro _ acc opts rest; simp [pushArrayItems]
  | cons i g ih =>
    intro hok acc opts rest
    have hi : itemOk i = true := by
      cases hb : itemOk i
      · rw [List.all_cons, hb] at hok; simp at hok
      · rfl
    have hg : g.all itemOk = true := by
      rw [List.all_cons, hi] at hok; simpa using hok
    cases i with
    | fn f => simp [pushArrayItems, ih hg, itemEntry, List.filterMap_cons]
    | obj f p => simp [pushArrayItems, ih hg, itemEntry, List.filterMap_cons]
    | bad => simp [itemOk] at hi

theorem hooksLookup_hooksSet {h : Hooks} {et : String} {l0 : List HookEntry}
    (hlk : hooksLookup h et = some l0) (l : List HookEntry) :
    hooksLookup (hooksSet h et l) et = some l := by
  unfold hooksLookup hooksSet at *
  split_ifs at hlk ⊢ <;> simp_all

theorem hooksSet_hooksSet (h : Hooks) (et : String) (a b : List HookEntry) :
    hooksSet (hooksSet h et a) et b = hooksSet h et b := by
  unfold hooksSet
  split_ifs <;> rfl

theorem register_ok {h : Hooks} {et : String} {l : List HookEntry} {arg : HandlerArg}
    (opts : RegOptions) (hlk : hooksLookup h et = some l) (hok : argOk arg = true) :
    register h et arg opts =
      (hooksSet h et (sortByPriorityDesc (l ++ argEntries opts arg)), none) := by
  cases arg with
  | fn f => simp [register, hlk, argEntries]
  | obj f p => simp [register, hlk, argEntries]
  | arr items =>
    have : items.all itemOk = true := hok
    simp [register, hlk, argEntries, pushArrayItems_all_ok this]
  | bad => simp [argOk] at hok

theorem registerAll_ok {et : String} :
    ∀ (calls : List (HandlerArg × RegOptions)) (h : Hooks) (L0 : List HookEntry),
      hooksLookup h et = some (sortByPriorityDesc L0) →
      (∀ c ∈ calls, argOk c.1 = true) →
      hooksLookup (registerAll h et calls) et =
        some (sortByPriorityDesc (L0 ++ callsEntries calls)) := by
  intro calls
  induction calls with
  | nil => intro h L0 hlk _; simpa [registerAll, callsEntries] using hlk
  | cons c rest ih =>
    intro h L0 hlk hok
    have hc : argOk c.1 = true := hok c (List.mem_cons_self c rest)
    have hrest : ∀ d ∈ rest, argOk d.1 = true :=
      fun d hd => hok d (List.mem_cons_of_mem c hd)
    have hreg := register_ok c.2 hlk hc
    have hlk2 : hooksLookup (register h et c.1 c.2).1 et =
        some (sortByPriorityDesc (L0 ++ argEntries c.2 c.1)) := by
      rw [hreg]
      simpa [sort_append_sort] using
        hooksLookup_hooksSet hlk
          (sortByPriorityDesc (sortByPriorityDesc L0 ++ argEntries c.2 c.1))
    have := ih (register h et c.1 c.2).1 (L0 ++ argEntries c.2 c.1) hlk2 hrest
    simpa [registerAll, callsEntries, List.append_assoc] using this

theorem registerAll_singletons {et : String} :
    ∀ (items : List HItem) (h : Hooks) (l : List HookEntry) (opts : RegOptions),
      hooksLookup h et = some l → items.all itemOk = true → items ≠ [] →
      registerAll h et (items.map (fun i => (itemToArg i, opts))) =
        hooksSet h et (sortByPriorityDesc (l ++ items.filterMap (itemEntry opts))) := by
  intro items
  induction items with
  | nil => intro h l opts _ _ hne; exact absurd rfl hne
  | cons i rest ih =>
    intro h l opts hlk hok _
    have hi : itemOk i = true := by
      cases hb : itemOk i
      · rw [List.all_cons, hb] at hok; simp at hok
      · rfl
    have hrest : rest.all itemOk = true := by
      rw [List.all_cons, hi] at hok; simpa using hok
    have hargok : argOk (itemToArg i) = true := by
      cases i <;> simp_all [itemToArg, argOk, itemOk]
    have hentry : ∃ e, itemEntry opts i = some e ∧ argEntries opts (itemToArg i) = [e] := by
      cases i with
      | fn f => exact ⟨_, rfl, rfl⟩
      | obj f p => exact ⟨_, rfl, rfl⟩
      | bad => simp [itemOk] at hi
    rcases hentry with ⟨e, he, hae⟩
    have hreg := register_ok opts hlk hargok
    rw [hae] at hreg
    cases rest with
    | nil =>
      simp only [List.map_cons, List.map_nil, registerAll, hreg]
      simp [List.filterMap_cons, he]
    | cons j js =>
      have hlk2 : hooksLookup (register h et (itemToArg i) opts).1 et =
          some (sortByPriorityDesc (l ++ [e])) := by
        rw [hreg]
        exact hooksLookup_hooksSet hlk (sortByPriorityDesc (l ++ [e]))
      have hne2 : (j :: js) ≠ ([] : List HItem) := by simp
      have hstep := ih (register h et (itemToArg i) opts).1
        (sortByPriorityDesc (l ++ [e])) opts hlk2 hrest hne2
      calc registerAll h et ((i :: j :: js).map (fun i => (itemToArg i, opts)))
          = registerAll (register h et (itemToArg i) opts).1 et
              ((j :: js).map (fun i => (itemToArg i, opts))) := rfl
        _ = hooksSet (register h et (itemToArg i) opts).1 et
              (sortByPriorityDesc (sortByPriorityDesc (l ++ [e]) ++
                (j :: js).filterMap (itemEntry opts))) := hstep
        _ = hooksSet h et (sortByPriorityDesc (l ++
              (i :: j :: js).filterMap (itemEntry opts))) := by
            rw [hreg, sort_append_sort, hooksSet_hooksSet]
            simp [List.filterMap_cons, he, List.append_assoc]

/-! Lemmas about dispatch and the poll loop. -/

theorem firstFailure_none_iff (henv : HandlerEnv) (ev : Event) :
    ∀ l : List HookEntry,
      firstFailure henv ev l = none ↔ ∀ e ∈ l, henv e.handler ev = HandlerRes.ok := by
  intro l
  induction l with
  | nil => simp [firstFailure]
  | cons e rest ih =>
    cases hr : henv e.handler ev with
    | ok => simp [firstFailure, hr, ih]
    | err c => simp [firstFailure, hr]

theorem firstFailure_some (henv : HandlerEnv) (ev : Event) :
    ∀ (l : List HookEntry) (c : Nat),
      firstFailure henv ev l = some c →
      ∃ e ∈ l, henv e.handler ev = HandlerRes.err c := by
  intro l
  induction l with
  | nil => intro c hc; simp [firstFailure] at hc
  | cons e rest ih =>
    intro c hc
    cases hr : henv e.handler ev with
    | ok =>
      rw [firstFailure, hr] at hc
      rcases ih c hc with ⟨e2, he2, hr2⟩
      exact ⟨e2, List.mem_cons_of_mem e he2, hr2⟩
    | err d =>
      rw [firstFailure, hr] at hc
      cases hc
      exact ⟨e, List.mem_cons_self e rest, hr⟩

theorem runLoop_nil (h : Hooks) (henv : HandlerEnv) (r : ReportResult) :
    runLoop h henv r [] = ([], true) := rfl

theorem runLoop_shutdown_eq (h : Hooks) (henv : HandlerEnv) (r : ReportResult)
    {e : Event} (rest : List PollResult) (hs : e.eventType = "SHUTDOWN") :
    runLoop h henv r (PollResult.ev e :: rest) =
      ([Action.poll, Action.execHooks "SHUTDOWN" (executeHooks h henv "SHUTDOWN" e).1],
        false) := by
  simp [runLoop, hs]

theorem runLoop_invoke_eq (h : Hooks) (henv : HandlerEnv) (r : ReportResult)
    {e : Event} (rest : List PollResult)
    (hs : e.eventType ≠ "SHUTDOWN") (hi : e.eventType = "INVOKE") :
    runLoop h henv r (PollResult.ev e :: rest) =
      (Action.poll :: Action.execHooks "INVOKE" (executeHooks h henv "INVOKE" e).1 ::
        (runLoop h henv r rest).1, (runLoop h henv r rest).2) := by
  simp [runLoop, hs, hi]

theorem runLoop_other_eq (h : Hooks) (henv : HandlerEnv) (r : ReportResult)
    {e : Event} (rest : List PollResult)
    (hs : e.eventType ≠ "SHUTDOWN") (hi : e.eventType ≠ "INVOKE") :
    runLoop h henv r (PollResult.ev e :: rest) =
      (Action.poll :: (runLoop h henv r rest).1, (runLoop h henv r rest).2) := by
  simp [runLoop, hs, hi]

theorem runLoop_fatal_eq (h : Hooks) (henv : HandlerEnv) (r : ReportResult)
    {e : LambdaHookError} (rest : List PollResult) (hf : e.isFatal = true) :
    runLoop h henv r (PollResult.err e :: rest) =
      ([Action.poll, Action.reportExitAttempt r.failed], false) := by
  simp [runLoop, hf]

theorem runLoop_nonfatal_eq (h : Hooks) (henv : HandlerEnv) (r : ReportResult)
    {e : LambdaHookError} (rest : List PollResult) (hf : e.isFatal = false) :
    runLoop h henv r (PollResult.err e :: rest) =
      (Action.poll :: (runLoop h henv r rest).1, (runLoop h henv r rest).2) := by
  simp [runLoop, hf]

theorem runLoop_shape (h : Hooks) (henv : HandlerEnv) (r : ReportResult) :
    ∀ script : List PollResult,
      ((runLoop h henv r script).2 = true ∧
        ∀ a ∈ (runLoop h henv r script).1, isShutdownExec a = false)
      ∨ (∃ pre tr, (runLoop h henv r script).2 = false
          ∧ (runLoop h henv r script).1 = pre ++ [Action.execHooks "SHUTDOWN" tr]
          ∧ ∀ a ∈ pre, isShutdownExec a = false)
      ∨ (∃ pre b, (runLoop h henv r script).2 = false
          ∧ (runLoop h henv r script).1 = pre ++ [Action.reportExitAttempt b]
          ∧ ∀ a ∈ pre, isShutdownExec a = false) := by
  intro script
  induction script with
  | nil => exact Or.inl ⟨rfl, by simp [runLoop_nil]⟩
  | cons pr rest ih =>
    cases pr with
    | ev e =>
      by_cases hs : e.eventType = "SHUTDOWN"
      · refine Or.inr (Or.inl ⟨[Action.poll], (executeHooks h henv "SHUTDOWN" e).1, ?_, ?_, ?_⟩)
        · rw [runLoop_shutdown_eq h henv r rest hs]
        · rw [runLoop_shutdown_eq h henv r rest hs]
          rfl
        · intro a ha
          rcases List.mem_singleton.mp ha with rfl
          rfl
      · by_cases hi : e.eventType = "INVOKE"
        · rw [runLoop_invoke_eq h henv r rest hs hi]
          have hninv : isShutdownExec
              (Action.execHooks "INVOKE" (executeHooks h henv "INVOKE" e).1) = false := by
            simp [isShutdownExec]
          rcases ih with ⟨h2, hall⟩ | ⟨pre, tr, h2, htr, hpre⟩ | ⟨pre, b, h2, htr, hpre⟩
          · refine Or.inl ⟨h2, ?_⟩
            intro a ha
            rcases List.mem_cons.mp ha with rfl | ha
            · rfl
            · rcases List.mem_cons.mp ha with rfl | ha
              · exact hninv
              · exact hall a ha
          · refine Or.inr (Or.inl ⟨Action.poll :: Action.execHooks "INVOKE"
              (executeHooks h henv "INVOKE" e).1 :: pre, tr, h2, by simp [htr], ?_⟩)
            intro a ha
            rcases List.mem_cons.mp ha with rfl | ha
            · rfl
            · rcases List.mem_cons.mp ha with rfl | ha
              · exact hninv
              · exact hpre a ha
          · refine Or.inr (Or.inr ⟨Action.poll :: Action.execHooks "INVOKE"
              (executeHooks h henv "INVOKE" e).1 :: pre, b, h2, by simp [htr], ?_⟩)
            intro a ha
            rcases List.mem_cons.mp ha with rfl | ha
            · rfl
            · rcases List.mem_cons.mp ha with rfl | ha
              · exact hninv
              · exact hpre a ha
        · rw [runLoop_other_eq h henv r rest hs hi]
          rcases ih with ⟨h2, hall⟩ | ⟨pre, tr, h2, htr, hpre⟩ | ⟨pre, b, h2, htr, hpre⟩
          · refine Or.inl ⟨h2, ?_⟩
            intro a ha
            rcases List.mem_cons.mp ha with rfl | ha
            · rfl
            · exact hall a ha
          · refine Or.inr (Or.inl ⟨Action.poll :: pre, tr, h2, by simp [htr], ?_⟩)
            intro a ha
            rcases List.mem_cons.mp ha with rfl | ha
            · rfl
            · exact hpre a ha
          · refine Or.inr (Or.inr ⟨Action.poll :: pre, b, h2, by simp [htr], ?_⟩)
            intro a ha
            rcases List.mem_cons.mp ha with rfl | ha
            · rfl
            · exact hpre a ha
    | err e =>
      cases hf : e.isFatal
      · rw [runLoop_nonfatal_eq h henv r rest hf]
        rcases ih with ⟨h2, hall⟩ | ⟨pre, tr, h2, htr, hpre⟩ | ⟨pre, b, h2, htr, hpre⟩
        · refine Or.inl ⟨h2, ?_⟩
          intro a ha
          rcases List.mem_cons.mp ha with rfl | ha
          · rfl
          · exact hall a ha
        · refine Or.inr (Or.inl ⟨Action.poll :: pre, tr, h2, by simp [htr], ?_⟩)
          intro a ha
          rcases List.mem_cons.mp ha with rfl | ha
          · rfl
          · exact hpre a ha
        · refine Or.inr (Or.inr ⟨Action.poll :: pre, b, h2, by simp [htr], ?_⟩)
          intro a ha
          rcases List.mem_cons.mp ha with rfl | ha
          · rfl
          · exact hpre a ha
      · refine Or.inr (Or.inr ⟨[Action.poll], ReportResult.failed r, ?_, ?_, ?_⟩)
        · rw [runLoop_fatal_eq h henv r rest hf]
        · rw [runLoop_fatal_eq h henv r rest hf]
          rfl
        · intro a ha
          rcases List.mem_singleton.mp ha with rfl
          rfl

theorem runLoop_snd_report_indep (h : Hooks) (henv : HandlerEnv) :
    ∀ (script : List PollResult) (r1 r2 : ReportResult),
      (runLoop h henv r1 script).2 = (runLoop h henv r2 script).2 := by
  intro script
  induction script with
  | nil => intro r1 r2; rfl
  | cons pr rest ih =>
    intro r1 r2
    cases pr with
    | ev e =>
      by_cases hs : e.eventType = "SHUTDOWN"
      · rw [runLoop_shutdown_eq h henv r1 rest hs, runLoop_shutdown_eq h henv r2 rest hs]
      · by_cases hi : e.eventType = "INVOKE"
        · rw [runLoop_invoke_eq h henv r1 rest hs hi, runLoop_invoke_eq h henv r2 rest hs hi]
          exact ih r1 r2
        · rw [runLoop_other_eq h henv r1 rest hs hi, runLoop_other_eq h henv r2 rest hs hi]
          exact ih r1 r2
    | err e =>
      cases hf : e.isFatal
      · rw [runLoop_nonfatal_eq h henv r1 rest hf, runLoop_nonfatal_eq h henv r2 rest hf]
        exact ih r1 r2
      · rw [runLoop_fatal_eq h henv r1 rest hf, runLoop_fatal_eq h henv r2 rest hf]

/-! Claim theorems. -/

/-- C1, counterexample: registering the object `{handler: 7, priority: 0}`
with `options.priority = 5` stores the entry with priority `5`, not the
item's own priority `0` — `item.priority || options.priority || 0` treats
the explicit `0` as absent, so the claim that an item registered with
`priority: p` keeps `p` for every integer `p` including `0` fails. -/
theorem c1_zero_priority_cex :
    register emptyHooks "INIT" (HandlerArg.obj 7 (some 0)) { priority := some 5 } =
      ({ INIT := [⟨7, 5⟩], INVOKE := [], SHUTDOWN := [] }, none)
    ∧ ((5 : Int) = 0) = False := by
  constructor
  · rfl
  · simp

/-- C1, amended: the options default priority is applied to any item whose
own priority is absent or `0` (falsy); an item with a nonzero priority `p`
is stored with `p` regardless of `options.priority`; and normalization is
form-independent: a bare handler registers exactly like a
`{handler}` object without a priority, and a successful array registration
produces the same registry as the sequence of its items registered one by
one. -/
theorem c1_normalization_amended :
    (∀ (h : Hooks) (et : String) (l : List HookEntry) (f : Nat) (p : Int) (opts : RegOptions),
       hooksLookup h et = some l → p ≠ 0 →
       register h et (HandlerArg.obj f (some p)) opts =
         (hooksSet h et (sortByPriorityDesc (l ++ [⟨f, p⟩])), none))
    ∧ (∀ (h : Hooks) (et : String) (f : Nat) (opts : RegOptions),
       register h et (HandlerArg.fn f) opts = register h et (HandlerArg.obj f none) opts)
    ∧ (∀ (et : String) (items : List HItem) (h : Hooks) (l : List HookEntry)
        (opts : RegOptions),
       hooksLookup h et = some l → items.all itemOk = true → items ≠ [] →
       (register h et (HandlerArg.arr items) opts).1 =
         registerAll h et (items.map (fun i => (itemToArg i, opts)))
       ∧ (register h et (HandlerArg.arr items) opts).2 = none) := by
  refine ⟨?_, ?_, ?_⟩
  · intro h et l f p opts hlk hp
    have ht : truthyInt (some p) = true := by simp [truthyInt, hp]
    simp [register, hlk, jsPriorityOr, ht]
  · intro h et f opts
    cases hlk : hooksLookup h et <;> simp [register, hlk]
  · intro et items h l opts hlk hok hne
    have hreg := @register_ok h et l (HandlerArg.arr items) opts hlk hok
    rw [registerAll_singletons items h l opts hlk hok hne, hreg]
    exact ⟨rfl, rfl⟩

/-- C1, witness for the amended theorem at concrete inputs. -/
theorem c1_normalization_amended_witness :
    register emptyHooks "INIT" (HandlerArg.obj 7 (some 3)) { priority := some 5 } =
      (hooksSet emptyHooks "INIT" (sortByPriorityDesc ([] ++ [⟨7, 3⟩])), none)
    ∧ register emptyHooks "INVOKE" (HandlerArg.fn 4) { priority := some 2 } =
        register emptyHooks "INVOKE" (HandlerArg.obj 4 none) { priority := some 2 }
    ∧ (register emptyHooks "INIT"
          (HandlerArg.arr [HItem.fn 1, HItem.obj 2 (some 9)]) { priority := none }).1 =
        registerAll emptyHooks "INIT"
          ([HItem.fn 1, HItem.obj 2 (some 9)].map
            (fun i => (itemToArg i, ({ priority := none } : RegOptions)))) :=
  ⟨c1_normalization_amended.1 emptyHooks "INIT" [] 7 3 { priority := some 5 } rfl (by decide),
   c1_normalization_amended.2.1 emptyHooks "INVOKE" 4 { priority := some 2 },
   (c1_normalization_amended.2.2 "INIT" [HItem.fn 1, HItem.obj 2 (some 9)] emptyHooks []
     { priority := none } rfl (by decide) (by decide)).1⟩

/-- C2: the guard `if (!extensionId)` in `reportInitError` and
`reportExitError` reads an identifier no scope of the client module binds,
so both calls throw `ReferenceError('extensionId is not defined')` for
every error argument and in every registration state — before registration
they do not fail with `INVALID_STATE` as documented, and after a successful
registration they still fail; a `ReferenceError` is not a
`LambdaHookError` of any code. -/
theorem c2_report_reference_error :
    ∀ (name : String) (acc : Bool) (cid : Option String) (e : LambdaHookError),
      reportInitError (clientEnv name acc) cid e =
        ReportResult.err (JsFailure.referenceError "extensionId")
      ∧ reportExitError (clientEnv name acc) cid e =
        ReportResult.err (JsFailure.referenceError "extensionId")
      ∧ ∀ le : LambdaHookError,
          (JsFailure.referenceError "extensionId" = JsFailure.hookError le) = False := by
  intro name acc cid e
  refine ⟨rfl, rfl, ?_⟩
  intro le
  simp

/-- C3: delivery of a termination signal invokes the listener with `this`
bound to the `process` object (the method was passed unbound to
`process.once`), so the private access `this.#handleShutdown` throws
`TypeError` before any dispatch: the delivery performs zero
`executeHooks(SHUTDOWN, …)` dispatches and then terminates the process via
the `finally` block; the single synthetic dispatch the claim describes
would happen only with the controller instance as receiver. -/
theorem c3_signal_handler_no_dispatch :
    ∀ (h : Hooks) (henv : HandlerEnv) (s : String),
      (signalDelivery h henv s).dispatches = []
      ∧ (signalDelivery h henv s).exited = true
      ∧ (handleSignal ThisVal.ctrlInstance h henv s).dispatches =
          [("SHUTDOWN", (executeHooks h henv "SHUTDOWN" (syntheticShutdownEvent s)).1)] :=
  fun _ _ _ => ⟨rfl, rfl, rfl⟩

/-- C4, counterexample: the `start()` guard only tests `#isRunning`, which
is `false` both while a first `start()` is still registering and after the
controller terminated; in those states — both past `CREATED` — a second
`start()` does not fail with `ALREADY_RUNNING`. -/
theorem c4_start_guard_cex :
    (startCall ControllerState.terminated).1 = none
    ∧ (startCall ControllerState.registering).1 = none
    ∧ (ControllerState.terminated = ControllerState.created) = False := by
  refine ⟨rfl, rfl, by simp⟩

/-- C4, amended: a second `start()` fails with `ALREADY_RUNNING` exactly
when the controller is `RUNNING` (the `#isRunning` flag is set, i.e. after
the first call completed registration and `INIT` and before termination);
when it fails, the state is left untouched, so the first call's loop is
unaffected. -/
theorem c4_start_guard_amended :
    ∀ st : ControllerState,
      ((startCall st).1 = some alreadyRunningError ↔ st = ControllerState.running)
      ∧ startCall ControllerState.running =
          (some alreadyRunningError, ControllerState.running) := by
  intro st
  cases st <;> exact ⟨by decide, by decide⟩

/-- C4, witness: the running state at a concrete input. -/
theorem c4_start_guard_amended_witness :
    (startCall ControllerState.running).1 = some alreadyRunningError
    ∧ startCall ControllerState.running =
        (some alreadyRunningError, ControllerState.running) :=
  ⟨(c4_start_guard_amended ControllerState.running).1.mpr rfl,
   (c4_start_guard_amended ControllerState.running).2⟩

/-- C5: for every sequence of successful registration calls into a phase,
the stored list — which is exactly the launch order used by
`executeHooks` — is the stable descending sort of the pushed entries:
priorities are non-increasing along it, and for every priority value the
entries carrying it appear in registration order (stable tie-break);
registering `[A(p=0), B(p=20), C(p=0)]` in one call yields launch order
`B, A, C`. -/
theorem c5_launch_order :
    (∀ (et : String) (calls : List (HandlerArg × RegOptions)) (henv : HandlerEnv)
       (ev : Event) (hret : List HookEntry),
       hooksLookup emptyHooks et = some [] →
       (∀ c ∈ calls, argOk c.1 = true) →
       hooksLookup (registerAll emptyHooks et calls) et = some hret →
       hret = sortByPriorityDesc (callsEntries calls)
       ∧ hret.Pairwise (fun a b => b.priority ≤ a.priority)
       ∧ (∀ p : Int, hret.filter (fun x => decide (x.priority = p)) =
           (callsEntries calls).filter (fun x => decide (x.priority = p)))
       ∧ (hret ≠ [] →
          (executeHooks (registerAll emptyHooks et calls) henv et ev).1 =
            hret.map (fun x => x.handler)))
    ∧ hooksLookup (registerAll emptyHooks "INIT"
        [(HandlerArg.arr [HItem.obj 1 (some 0), HItem.obj 2 (some 20), HItem.obj 3 (some 0)],
          { priority := none })]) "INIT" =
        some [⟨2, 20⟩, ⟨1, 0⟩, ⟨3, 0⟩] := by
  constructor
  · intro et calls henv ev hret hlk0 hok hlkr
    have hlk0s : hooksLookup emptyHooks et = some (sortByPriorityDesc []) := hlk0
    have hall := registerAll_ok calls emptyHooks [] hlk0s hok
    rw [hlkr] at hall
    have hret_eq : hret = sortByPriorityDesc (callsEntries calls) := by
      have := Option.some.inj hall
      simpa using this
    refine ⟨hret_eq, ?_, ?_, ?_⟩
    · rw [hret_eq]; exact sortByPriorityDesc_pairwise _
    · intro p; rw [hret_eq, filter_sortByPriorityDesc]
    · intro hne
      have hlen : ¬ hret.length = 0 := fun hh => hne (List.length_eq_zero.mp hh)
      simp [executeHooks, hlkr, hlen]
  · rfl

/-- C5, witness: the `[A(p=0), B(p=20), C(p=0)]` example. -/
theorem c5_launch_order_witness :
    [HookEntry.mk 2 20, HookEntry.mk 1 0, HookEntry.mk 3 0] =
      sortByPriorityDesc (callsEntries
        [(HandlerArg.arr [HItem.obj 1 (some 0), HItem.obj 2 (some 20), HItem.obj 3 (some 0)],
          { priority := none })])
    ∧ List.Pairwise (fun a b => b.priority ≤ a.priority)
        [HookEntry.mk 2 20, HookEntry.mk 1 0, HookEntry.mk 3 0] := by
  have h := c5_launch_order.1 "INIT"
    [(HandlerArg.arr [HItem.obj 1 (some 0), HItem.obj 2 (some 20), HItem.obj 3 (some 0)],
      { priority := none })] (fun _ _ => HandlerRes.ok) { eventType := "INIT" }
    [⟨2, 20⟩, ⟨1, 0⟩, ⟨3, 0⟩] rfl (by decide) (by decide)
  exact ⟨h.1, h.2.1⟩

/-- C6: on a phase with at least one entry, `executeHooks` starts every
handler (the trace lists them all, so handlers that did not fail still run
to completion), resolves exactly when every handler returned normally, and
on failure rejects with a `HOOK_EXECUTION_ERROR` whose message names the
phase and whose cause is the original error of a failing handler. -/
theorem c6_execute_hooks_failure :
    ∀ (h : Hooks) (henv : HandlerEnv) (et : String) (ev : Event) (l : List HookEntry),
      hooksLookup h et = some l → l ≠ [] →
      (executeHooks h henv et ev).1 = l.map (fun x => x.handler)
      ∧ ((executeHooks h henv et ev).2 = ExecResult.resolved ↔
          ∀ e ∈ l, henv e.handler ev = HandlerRes.ok)
      ∧ (∀ err, (executeHooks h henv et ev).2 = ExecResult.rejected err →
          err.code = "HOOK_EXECUTION_ERROR"
          ∧ err.message = "Error executing " ++ et ++ " hook"
          ∧ ∃ c, err.cause = some c ∧ ∃ e ∈ l, henv e.handler ev = HandlerRes.err c) := by
  intro h henv et ev l hlk hne
  have hlen : ¬ l.length = 0 := fun hh => hne (List.length_eq_zero.mp hh)
  cases hff : firstFailure henv ev l with
  | none =>
    have hall := (firstFailure_none_iff henv ev l).mp hff
    refine ⟨by simp [executeHooks, hlk, hlen, hff], ?_, ?_⟩
    · simp only [executeHooks, hlk, hlen, hff]
      simpa using hall
    · intro err herr
      simp [executeHooks, hlk, hlen, hff] at herr
  | some c =>
    rcases firstFailure_some henv ev l c hff with ⟨e0, he0, hr0⟩
    refine ⟨by simp [executeHooks, hlk, hlen, hff], ?_, ?_⟩
    · simp only [executeHooks, hlk, hlen, hff]
      constructor
      · intro hcontra
        simp at hcontra
      · intro hall
        have := hall e0 he0
        rw [hr0] at this
        cases this
    · intro err herr
      have hE : (executeHooks h henv et ev).2 =
          ExecResult.rejected
            { code := "HOOK_EXECUTION_ERROR"
              message := "Error executing " ++ et ++ " hook"
              cause := some c } := by
        simp [executeHooks, hlk, hlen, hff]
      rw [hE] at herr
      cases ExecResult.rejected.inj herr
      exact ⟨rfl, rfl, c, rfl, e0, he0, hr0⟩

/-- C6, witness: one failing and one succeeding handler on `INVOKE` — both
run (the trace lists both) and the call does not resolve. -/
theorem c6_execute_hooks_failure_witness :
    (executeHooks { INIT := [], INVOKE := [⟨1, 0⟩, ⟨2, 0⟩], SHUTDOWN := [] }
        (fun n _ => if n = 1 then HandlerRes.err 99 else HandlerRes.ok)
        "INVOKE" { eventType := "INVOKE" }).1 = [1, 2]
    ∧ ((executeHooks { INIT := [], INVOKE := [⟨1, 0⟩, ⟨2, 0⟩], SHUTDOWN := [] }
        (fun n _ => if n = 1 then HandlerRes.err 99 else HandlerRes.ok)
        "INVOKE" { eventType := "INVOKE" }).2 = ExecResult.resolved) = False := by
  have h := c6_execute_hooks_failure
    { INIT := [], INVOKE := [⟨1, 0⟩, ⟨2, 0⟩], SHUTDOWN := [] }
    (fun n _ => if n = 1 then HandlerRes.err 99 else HandlerRes.ok)
    "INVOKE" { eventType := "INVOKE" } [⟨1, 0⟩, ⟨2, 0⟩] rfl (by decide)
  refine ⟨h.1, ?_⟩
  simp only [eq_iff_iff, iff_false]
  intro hres
  have := h.2.1.mp hres ⟨1, 0⟩ (by decide)
  simp at this

/-- C7: a poll that yields a `SHUTDOWN` envelope makes the loop dispatch
the `SHUTDOWN` phase once and stop — the trace from that poll is exactly
the poll and the dispatch, and `#isRunning` ends `false` for every handler
behaviour, including throwing handlers; globally, any loop trace contains
at most one `SHUTDOWN` dispatch, and such a dispatch is always the final
action (no further poll) with the loop terminated. -/
theorem c7_shutdown_once_terminal :
    (∀ (h : Hooks) (henv : HandlerEnv) (r : ReportResult) (e : Event)
       (rest : List PollResult),
       e.eventType = "SHUTDOWN" →
       runLoop h henv r (PollResult.ev e :: rest) =
         ([Action.poll, Action.execHooks "SHUTDOWN" (executeHooks h henv "SHUTDOWN" e).1],
           false))
    ∧ (∀ (h : Hooks) (henv : HandlerEnv) (r : ReportResult) (script : List PollResult),
       ((runLoop h henv r script).1.filter isShutdownExec).length ≤ 1
       ∧ (∀ tr, Action.execHooks "SHUTDOWN" tr ∈ (runLoop h henv r script).1 →
           (runLoop h henv r script).2 = false
           ∧ (runLoop h henv r script).1.getLast? =
               some (Action.execHooks "SHUTDOWN" tr))) := by
  constructor
  · intro h henv r e rest hs
    exact runLoop_shutdown_eq h henv r rest hs
  · intro h henv r script
    have hshut : ∀ tr : List Nat, isShutdownExec (Action.execHooks "SHUTDOWN" tr) = true := by
      intro tr; simp [isShutdownExec]
    rcases runLoop_shape h henv r script with
      ⟨h2, hall⟩ | ⟨pre, tr0, h2, htr, hpre⟩ | ⟨pre, b, h2, htr, hpre⟩
    · constructor
      · have : (runLoop h henv r script).1.filter isShutdownExec = [] :=
          List.filter_eq_nil_iff.mpr (fun a ha => by simp [hall a ha])
        simp [this]
      · intro tr htrm
        have := hall _ htrm
        rw [hshut tr] at this
        cases this
    · have hfpre : pre.filter isShutdownExec = [] :=
        List.filter_eq_nil_iff.mpr (fun a ha => by simp [hpre a ha])
      constructor
      · rw [htr, List.filter_append, hfpre]
        simp [hshut tr0]
      · intro tr htrm
        rw [htr] at htrm
        rcases List.mem_append.mp htrm with hin | hin
        · have := hpre _ hin
          rw [hshut tr] at this
          cases this
        · have heq : Action.execHooks "SHUTDOWN" tr = Action.execHooks "SHUTDOWN" tr0 :=
            List.mem_singleton.mp hin
          refine ⟨h2, ?_⟩
          rw [htr, List.getLast?_concat, heq]
    · have hfpre : pre.filter isShutdownExec = [] :=
        List.filter_eq_nil_iff.mpr (fun a ha => by simp [hpre a ha])
      constructor
      · rw [htr, List.filter_append, hfpre]
        simp [isShutdownExec]
      · intro tr htrm
        rw [htr] at htrm
        rcases List.mem_append.mp htrm with hin | hin
        · have := hpre _ hin
          rw [hshut tr] at this
          cases this
        · have := List.mem_singleton.mp hin
          cases this

/-- C7, witness: a shutdown envelope with a throwing `SHUTDOWN` handler —
one dispatch, loop terminated. -/
theorem c7_shutdown_once_terminal_witness :
    runLoop { INIT := [], INVOKE := [], SHUTDOWN := [⟨9, 0⟩] }
        (fun _ _ => HandlerRes.err 5) ReportResult.ok
        [PollResult.ev { eventType := "SHUTDOWN" }] =
      ([Action.poll, Action.execHooks "SHUTDOWN"
          (executeHooks { INIT := [], INVOKE := [], SHUTDOWN := [⟨9, 0⟩] }
            (fun _ _ => HandlerRes.err 5) "SHUTDOWN" { eventType := "SHUTDOWN" }).1],
        false) :=
  c7_shutdown_once_terminal.1 { INIT := [], INVOKE := [], SHUTDOWN := [⟨9, 0⟩] }
    (fun _ _ => HandlerRes.err 5) ReportResult.ok { eventType := "SHUTDOWN" } [] rfl

/-- C8: the loop's reaction to a `nextEvent` rejection is decided solely by
the error's `isFatal` flag — errors with equal flags produce identical loop
behaviour; a fatal error yields one best-effort `reportExitError` attempt
and terminates the loop, a non-fatal error is logged and the loop retries;
and the loop's termination outcome never depends on whether the report
attempt itself failed. -/
theorem c8_fatal_flag_decides :
    ∀ (h : Hooks) (henv : HandlerEnv) (r : ReportResult) (e1 e2 : LambdaHookError)
      (rest : List PollResult),
      (e1.isFatal = e2.isFatal →
        runLoop h henv r (PollResult.err e1 :: rest) =
          runLoop h henv r (PollResult.err e2 :: rest))
      ∧ (e1.isFatal = true →
        runLoop h henv r (PollResult.err e1 :: rest) =
          ([Action.poll, Action.reportExitAttempt r.failed], false))
      ∧ (e1.isFatal = false →
        runLoop h henv r (PollResult.err e1 :: rest) =
          (Action.poll :: (runLoop h henv r rest).1, (runLoop h henv r rest).2))
      ∧ (∀ r2, (runLoop h henv r (PollResult.err e1 :: rest)).2 =
          (runLoop h henv r2 (PollResult.err e1 :: rest)).2) := by
  intro h henv r e1 e2 rest
  refine ⟨?_, ?_, ?_, ?_⟩
  · intro heq
    cases hf : e1.isFatal
    · rw [runLoop_nonfatal_eq h henv r rest hf,
        runLoop_nonfatal_eq h henv r rest (heq ▸ hf)]
    · rw [runLoop_fatal_eq h henv r rest hf,
        runLoop_fatal_eq h henv r rest (heq ▸ hf)]
  · intro hf
    exact runLoop_fatal_eq h henv r rest hf
  · intro hf
    exact runLoop_nonfatal_eq h henv r rest hf
  · intro r2
    exact runLoop_snd_report_indep h henv (PollResult.err e1 :: rest) r r2

/-- C8, witness: a fatal network error with a failing report attempt —
the loop attempts the report and terminates. -/
theorem c8_fatal_flag_decides_witness :
    runLoop emptyHooks (fun _ _ => HandlerRes.ok)
        (ReportResult.err (JsFailure.referenceError "extensionId"))
        [PollResult.err { code := "NETWORK_ERROR", message := "m", isFatal := true }] =
      ([Action.poll, Action.reportExitAttempt
          (ReportResult.failed (ReportResult.err (JsFailure.referenceError "extensionId")))],
        false) :=
  (c8_fatal_flag_decides emptyHooks (fun _ _ => HandlerRes.ok)
    (ReportResult.err (JsFailure.referenceError "extensionId"))
    { code := "NETWORK_ERROR", message := "m", isFatal := true }
    { code := "NETWORK_ERROR", message := "m", isFatal := true } []).2.1 rfl

/-- C9: construction succeeds exactly when `extensionName` is truthy,
`extensionType` is `internal` or `external`, and `initLoad` is `before` or
`after`; every constructor failure carries code `INIT_ERROR`; and since
`initLoad` has no default, omitting it always fails even when the other
options are valid. -/
theorem c9_ctor_validation :
    ∀ o : CtorOptions,
      (ctorValidate o = none ↔
        truthyStr o.extensionName = true
        ∧ (o.extensionType = some "internal" ∨ o.extensionType = some "external")
        ∧ (o.initLoad = some "before" ∨ o.initLoad = some "after"))
      ∧ (∀ e, ctorValidate o = some e → e.code = "INIT_ERROR")
      ∧ (o.initLoad = none → ∃ e, ctorValidate o = some e) := by
  intro o
  have hiff : ctorValidate o = none ↔
      truthyStr o.extensionName = true
      ∧ (o.extensionType = some "internal" ∨ o.extensionType = some "external")
      ∧ (o.initLoad = some "before" ∨ o.initLoad = some "after") := by
    unfold ctorValidate
    split_ifs <;> simp_all
  refine ⟨hiff, ?_, ?_⟩
  · intro e he
    unfold ctorValidate at he
    split_ifs at he <;> (cases he; rfl)
  · intro hnone
    cases he : ctorValidate o with
    | some e => exact ⟨e, rfl⟩
    | none =>
      rcases (hiff.mp he).2.2 with hb | ha
      · rw [hnone] at hb; cases hb
      · rw [hnone] at ha; cases ha

/-- C9, witness: valid options construct; the same options without
`initLoad` fail. -/
theorem c9_ctor_validation_witness :
    ctorValidate ⟨some "x", some "internal", some "before", none⟩ = none
    ∧ (ctorValidate ⟨some "x", some "internal", none, none⟩).isSome = true := by
  constructor
  · exact (c9_ctor_validation ⟨some "x", some "internal", some "before", none⟩).1.mpr
      (by decide)
  · rcases (c9_ctor_validation ⟨some "x", some "internal", none, none⟩).2.2 rfl with ⟨e, he⟩
    rw [he]
    rfl

/-- C10: a registration whose array has a valid prefix followed by an
invalid item throws `INVALID_HANDLER` with the prefix already appended to
the phase list and no re-sort, so the failing call mutates the registry;
a call with an unknown phase throws `INVALID_EVENT_TYPE` and leaves the
registry completely unchanged. -/
theorem c10_array_partial_mutation :
    (∀ (h : Hooks) (et : String) (l : List HookEntry) (opts : RegOptions)
       (good rest : List HItem),
       hooksLookup h et = some l → good.all itemOk = true →
       register h et (HandlerArg.arr (good ++ HItem.bad :: rest)) opts =
         (hooksSet h et (l ++ good.filterMap (itemEntry opts)), some invalidHandlerItemError)
       ∧ (good ≠ [] → hooksSet h et (l ++ good.filterMap (itemEntry opts)) ≠ h))
    ∧ (∀ (h : Hooks) (et : String) (arg : HandlerArg) (opts : RegOptions),
       hooksLookup h et = none →
       register h et arg opts = (h, some (invalidEventTypeError et))) := by
  constructor
  · intro h et l opts good rest hlk hgood
    constructor
    · simp [register, hlk, pushArrayItems_bad_item hgood]
    · intro hne hcontra
      have hfm : good.filterMap (itemEntry opts) ≠ [] := by
        cases good with
        | nil => exact absurd rfl hne
        | cons i g =>
          have hi : itemOk i = true := by
            cases hb : itemOk i
            · rw [List.all_cons, hb] at hgood; simp at hgood
            · rfl
          cases i with
          | fn f => simp [List.filterMap_cons, itemEntry]
          | obj f p => simp [List.filterMap_cons, itemEntry]
          | bad => simp [itemOk] at hi
      have hlk2 := hooksLookup_hooksSet hlk (l ++ good.filterMap (itemEntry opts))
      rw [hcontra, hlk] at hlk2
      have h2 : l = l ++ good.filterMap (itemEntry opts) := Option.some.inj hlk2
      have h3 := congrArg List.length h2
      rw [List.length_append] at h3
      have h4 : (good.filterMap (itemEntry opts)).length = 0 := by omega
      exact hfm (List.length_eq_zero.mp h4)
  · intro h et arg opts hlk
    simp [register, hlk]

/-- C10, witness: `[fn, bad]` on `INIT` mutates and throws
`INVALID_HANDLER`; an unknown phase throws `INVALID_EVENT_TYPE` with no
change. -/
theorem c10_array_partial_mutation_witness :
    register emptyHooks "INIT" (HandlerArg.arr [HItem.fn 1, HItem.bad]) { priority := none } =
      (hooksSet emptyHooks "INIT"
        ([] ++ [HItem.fn 1].filterMap (itemEntry { priority := none })),
       some invalidHandlerItemError)
    ∧ hooksSet emptyHooks "INIT"
        ([] ++ [HItem.fn 1].filterMap (itemEntry { priority := none })) ≠ emptyHooks
    ∧ register emptyHooks "FOO" (HandlerArg.fn 1) { priority := none } =
        (emptyHooks, some (invalidEventTypeError "FOO")) := by
  have h1 := c10_array_partial_mutation.1 emptyHooks "INIT" [] { priority := none }
    [HItem.fn 1] [] rfl (by decide)
  have hmut : (register emptyHooks "INIT" (HandlerArg.arr ([HItem.fn 1] ++ HItem.bad :: []))
      { priority := none }) = (hooksSet emptyHooks "INIT"
        ([] ++ [HItem.fn 1].filterMap (itemEntry { priority := none })),
       some invalidHandlerItemError) := h1.1
  exact ⟨hmut, h1.2 (by decide),
    c10_array_partial_mutation.2 emptyHooks "FOO" (HandlerArg.fn 1) { priority := none } rfl⟩

end LambdaExtensionHooks
